import Mathlib

/-!
Verification of the blih command-line client (`src/blih/__init__.py`).

The development shallowly embeds the signing pipeline of the client:

* `sha512` / `hmacSha512` — the hash and keyed-hash primitives the Python
  code obtains from `hashlib` / `hmac` (FIPS 180-4 SHA-512, RFC 2104 HMAC),
  over byte lists (`List Nat`, each element `< 256`);
* `dumps` — the canonical JSON serializer, mirroring
  `json.dumps(data, sort_keys=True, indent=4, separators=(',', ': '))`
  of CPython (ASCII output, `ensure_ascii=True` default);
* `sign_data` — the envelope builder of lines 49-70, including the
  interactive-prompt branch taken when no token is supplied;
* `blihResponse` — the response classification of lines 91-106;
* `repository_createEvents` — the observable event trace of
  `repository_create` (lines 108-122).

Strings are modelled as lists of Unicode code points (`List Nat`);
`utf8Encode` models Python's `bytes(s, 'utf8')`.
-/

namespace Blih

set_option maxRecDepth 100000

/-- Code points of a string literal, for stating concrete examples. -/
def strCp (s : String) : List Nat := s.data.map Char.toNat

/-- Truncation to a 64-bit machine word, as `Nat`. -/
def w64 (n : Nat) : Nat := n % 2 ^ 64

/-- Right rotation of a 64-bit word. -/
def rotr64 (r x : Nat) : Nat := w64 ((x >>> r) ||| (x <<< (64 - r)))

/-- Bitwise complement of a 64-bit word. -/
def not64 (x : Nat) : Nat := Nat.xor x (2 ^ 64 - 1)

/-- SHA-512 `Ch` function (FIPS 180-4 §4.1.3). -/
def chS (e f g : Nat) : Nat := Nat.xor (e &&& f) (not64 e &&& g)

/-- SHA-512 `Maj` function. -/
def majS (a b c : Nat) : Nat := Nat.xor (Nat.xor (a &&& b) (a &&& c)) (b &&& c)

/-- SHA-512 `Σ₀`. -/
def bigSigma0 (x : Nat) : Nat := Nat.xor (Nat.xor (rotr64 28 x) (rotr64 34 x)) (rotr64 39 x)

/-- SHA-512 `Σ₁`. -/
def bigSigma1 (x : Nat) : Nat := Nat.xor (Nat.xor (rotr64 14 x) (rotr64 18 x)) (rotr64 41 x)

/-- SHA-512 `σ₀`. -/
def smallSigma0 (x : Nat) : Nat := Nat.xor (Nat.xor (rotr64 1 x) (rotr64 8 x)) (x >>> 7)

/-- SHA-512 `σ₁`. -/
def smallSigma1 (x : Nat) : Nat := Nat.xor (Nat.xor (rotr64 19 x) (rotr64 61 x)) (x >>> 6)

/-- The 80 SHA-512 round constants (FIPS 180-4 §4.2.3): the first 64 bits of
the fractional parts of the cube roots of the first 80 primes. -/
def sha512K : List Nat :=
  [4794697086780616226, 8158064640168781261, 13096744586834688815, 16840607885511220156,
   4131703408338449720, 6480981068601479193, 10538285296894168987, 12329834152419229976,
   15566598209576043074, 1334009975649890238, 2608012711638119052, 6128411473006802146,
   8268148722764581231, 9286055187155687089, 11230858885718282805, 13951009754708518548,
   16472876342353939154, 17275323862435702243, 1135362057144423861, 2597628984639134821,
   3308224258029322869, 5365058923640841347, 6679025012923562964, 8573033837759648693,
   10970295158949994411, 12119686244451234320, 12683024718118986047, 13788192230050041572,
   14330467153632333762, 15395433587784984357, 489312712824947311, 1452737877330783856,
   2861767655752347644, 3322285676063803686, 5560940570517711597, 5996557281743188959,
   7280758554555802590, 8532644243296465576, 9350256976987008742, 10552545826968843579,
   11727347734174303076, 12113106623233404929, 14000437183269869457, 14369950271660146224,
   15101387698204529176, 15463397548674623760, 17586052441742319658, 1182934255886127544,
   1847814050463011016, 2177327727835720531, 2830643537854262169, 3796741975233480872,
   4115178125766777443, 5681478168544905931, 6601373596472566643, 7507060721942968483,
   8399075790359081724, 8693463985226723168, 9568029438360202098, 10144078919501101548,
   10430055236837252648, 11840083180663258601, 13761210420658862357, 14299343276471374635,
   14566680578165727644, 15097957966210449927, 16922976911328602910, 17689382322260857208,
   500013540394364858, 748580250866718886, 1242879168328830382, 1977374033974150939,
   2944078676154940804, 3659926193048069267, 4368137639120453308, 4836135668995329356,
   5532061633213252278, 6448918945643986474, 6902733635092675308, 7801388544844847127]

/-- The initial SHA-512 hash value (FIPS 180-4 §5.3.5): the first 64 bits of
the fractional parts of the square roots of the first 8 primes. -/
def sha512H0 : List Nat :=
  [7640891576956012808, 13503953896175478587, 4354685564936845355, 11912009170470909681,
   5840696475078001361, 11170449401992604703, 2270897969802886507, 6620516959819538809]

/-- Big-endian byte representation of `n`, on `k` bytes. -/
def toBytesBE : Nat → Nat → List Nat
  | 0, _ => []
  | k + 1, n => toBytesBE k (n >>> 8) ++ [n % 256]

/-- SHA-512 padding: a 0x80 byte, zero bytes, then the bit length on 16 bytes,
so that the total length is a multiple of 128 bytes. -/
def sha512pad (msg : List Nat) : List Nat :=
  msg ++ 128 :: (List.replicate ((128 - (msg.length + 17) % 128) % 128) 0
    ++ toBytesBE 16 (8 * msg.length))

/-- Group bytes into big-endian 64-bit words. -/
def bytesToWords64 : List Nat → List Nat
  | b0 :: b1 :: b2 :: b3 :: b4 :: b5 :: b6 :: b7 :: rest =>
    (((((((b0 * 256 + b1) * 256 + b2) * 256 + b3) * 256 + b4) * 256 + b5) * 256 + b6) * 256 + b7)
      :: bytesToWords64 rest
  | _ => []

/-- Group a word list into message blocks of 16 words. -/
def chunk16 : List Nat → List (List Nat)
  | w0 :: w1 :: w2 :: w3 :: w4 :: w5 :: w6 :: w7 :: w8 :: w9 :: w10 :: w11 :: w12 :: w13
      :: w14 :: w15 :: rest =>
    [w0, w1, w2, w3, w4, w5, w6, w7, w8, w9, w10, w11, w12, w13, w14, w15] :: chunk16 rest
  | _ => []

/-- One extension step of the SHA-512 message schedule. -/
def scheduleStep (w : List Nat) : List Nat :=
  w ++ [w64 (smallSigma1 (w.getD (w.length - 2) 0) + w.getD (w.length - 7) 0
    + smallSigma0 (w.getD (w.length - 15) 0) + w.getD (w.length - 16) 0)]

/-- The 80-word SHA-512 message schedule of a 16-word block. -/
def schedule (block : List Nat) : List Nat :=
  (List.range 64).foldl (fun w _ => scheduleStep w) block

/-- One SHA-512 compression round; `kw` is the round constant plus the
schedule word, the state is the 8 working variables `a`..`h`. -/
def sha512round (st : List Nat) (kw : Nat) : List Nat :=
  match st with
  | [a, b, c, d, e, f, g, h] =>
    let t1 := w64 (h + bigSigma1 e + chS e f g + kw)
    let t2 := w64 (bigSigma0 a + majS a b c)
    [w64 (t1 + t2), a, b, c, w64 (d + t1), e, f, g]
  | other => other

/-- SHA-512 compression of one 16-word block into the chaining state. -/
def sha512compress (h : List Nat) (block : List Nat) : List Nat :=
  let st := (List.zipWith (fun k w => w64 (k + w)) sha512K (schedule block)).foldl sha512round h
  List.zipWith (fun x y => w64 (x + y)) h st

/-- SHA-512 of a byte list, as the 64-byte digest. -/
def sha512 (msg : List Nat) : List Nat :=
  ((chunk16 (bytesToWords64 (sha512pad msg))).foldl sha512compress sha512H0).flatMap (toBytesBE 8)

/-- Lowercase hexadecimal digit, as an ASCII code. -/
def hexDigit (n : Nat) : Nat := if n < 10 then 48 + n else 87 + n

/-- Lowercase hexadecimal rendering of a byte list, as ASCII codes.
Models Python's `.hexdigest()` output. -/
def bytesToHex (bs : List Nat) : List Nat := bs.flatMap (fun b => [hexDigit (b / 16), hexDigit (b % 16)])

/-- SHA-512 hex digest of a byte list: `hashlib.sha512(b).hexdigest()`. -/
def sha512hex (msg : List Nat) : List Nat := bytesToHex (sha512 msg)

/-- UTF-8 encoding of one code point. -/
def utf8Char (c : Nat) : List Nat :=
  if c < 128 then [c]
  else if c < 2048 then [192 ||| (c >>> 6), 128 ||| (c &&& 63)]
  else if c < 65536 then [224 ||| (c >>> 12), 128 ||| ((c >>> 6) &&& 63), 128 ||| (c &&& 63)]
  else [240 ||| (c >>> 18), 128 ||| ((c >>> 12) &&& 63), 128 ||| ((c >>> 6) &&& 63),
    128 ||| (c &&& 63)]

/-- UTF-8 encoding of a code-point string: Python's `bytes(s, 'utf8')`. -/
def utf8Encode (s : List Nat) : List Nat := s.flatMap utf8Char

/-- HMAC key preprocessing (RFC 2104, Python `hmac` with `digestmod=hashlib.sha512`):
keys longer than the 128-byte block are hashed, then the key is zero-padded
to the block size. -/
def hmacKey0 (key : List Nat) : List Nat :=
  let k := if 128 < key.length then sha512 key else key
  k ++ List.replicate (128 - k.length) 0

/-- HMAC-SHA512 of `msg` under `key` (RFC 2104). -/
def hmacSha512 (key msg : List Nat) : List Nat :=
  let k0 := hmacKey0 key
  sha512 ((k0.map (Nat.xor 92)) ++ sha512 ((k0.map (Nat.xor 54)) ++ msg))

/-- The state of a Python `hmac.new(...)` object: the key fixed at creation
and the message bytes accumulated so far. -/
structure HmacState where
  key : List Nat
  buf : List Nat
deriving DecidableEq

/-- Python `hmac.new(key, msg=m, digestmod=hashlib.sha512)`. -/
def hmacNew (key msg : List Nat) : HmacState := ⟨key, msg⟩

/-- Python `h.update(m)`: appends to the accumulated message. -/
def hmacUpdate (st : HmacState) (m : List Nat) : HmacState := ⟨st.key, st.buf ++ m⟩

/-- Python `h.hexdigest()`: the HMAC of the accumulated message, in lowercase hex. -/
def hmacHexdigest (st : HmacState) : List Nat := bytesToHex (hmacSha512 st.key st.buf)

/-- JSON values, the payloads of the client. Object entries are listed in
construction order; Python dict keys are unique. -/
inductive JVal : Type where
  | jstr : List Nat → JVal
  | jint : Int → JVal
  | jarr : List JVal → JVal
  | jobj : List (List Nat × JVal) → JVal

/-- Python truthiness of the `data` argument of `sign_data` (line 62, `if data:`):
`None` and empty containers are falsy. -/
def pyTruthy : Option JVal → Bool
  | none => false
  | some (JVal.jstr s) => !s.isEmpty
  | some (JVal.jint n) => decide (n ≠ 0)
  | some (JVal.jarr l) => !l.isEmpty
  | some (JVal.jobj l) => !l.isEmpty

/-- Four lowercase hex digits, for `\uXXXX` escapes. -/
def hex4 (n : Nat) : List Nat :=
  [hexDigit (n / 4096 % 16), hexDigit (n / 256 % 16), hexDigit (n / 16 % 16), hexDigit (n % 16)]

/-- CPython `json` string escaping with `ensure_ascii=True`: the two-character
escapes of the escape table, `\uXXXX` for other characters outside
`0x20`..`0x7e`, surrogate pairs above `0xffff`. -/
def jsonEscapeChar (c : Nat) : List Nat :=
  if c = 34 then [92, 34]
  else if c = 92 then [92, 92]
  else if c = 8 then [92, 98]
  else if c = 9 then [92, 116]
  else if c = 10 then [92, 110]
  else if c = 12 then [92, 102]
  else if c = 13 then [92, 114]
  else if c < 32 then 92 :: 117 :: hex4 c
  else if c < 127 then [c]
  else if c < 65536 then 92 :: 117 :: hex4 c
  else (92 :: 117 :: hex4 (55296 + ((c - 65536) >>> 10)))
    ++ (92 :: 117 :: hex4 (56320 + ((c - 65536) &&& 1023)))

/-- JSON rendering of a string: quoted and escaped. -/
def encStr (s : List Nat) : List Nat := 34 :: (s.flatMap jsonEscapeChar ++ [34])

/-- Decimal digits of a natural number, as ASCII codes (Python `str`). -/
def natDigits (n : Nat) : List Nat := (Nat.toDigits 10 n).map Char.toNat

/-- Python `str` of an integer. -/
def intStr : Int → List Nat
  | Int.ofNat n => natDigits n
  | Int.negSucc n => 45 :: natDigits (n + 1)

/-- Strict lexicographic order on code-point strings: Python `<` on `str`. -/
def strLtB : List Nat → List Nat → Bool
  | [], [] => false
  | [], _ :: _ => true
  | _ :: _, [] => false
  | a :: s, b :: t => if a < b then true else if b < a then false else strLtB s t

/-- Lexicographic `≤` on code-point strings. -/
def strLeB (s t : List Nat) : Bool := !strLtB t s

/-- Ordering of object entries by key, the order `sorted(dct.items())` uses
(keys of a dict are unique, so the comparison never reaches the values). -/
def entryLe (p q : List Nat × List Nat) : Prop := strLeB p.1 q.1 = true

instance : DecidableRel entryLe := fun _ _ => inferInstanceAs (Decidable (_ = true))

/-- Stable sort of rendered object entries by key. -/
def sortEntries (l : List (List Nat × List Nat)) : List (List Nat × List Nat) :=
  List.insertionSort entryLe l

/-- A newline followed by the indentation of level `lvl` (CPython emits
`'\n' + indent * level` around container items when `indent=4`). -/
def nlIndent (lvl : Nat) : List Nat := 10 :: List.replicate (4 * lvl) 32

/-- Join rendered items with a separator. -/
def sepJoin (sep : List Nat) : List (List Nat) → List Nat
  | [] => []
  | [x] => x
  | x :: y :: xs => x ++ sep ++ sepJoin sep (y :: xs)

/-- Glue rendered array items: `[` newline+indent, items separated by
`,` newline+indent, newline+outer indent `]`; the empty array is `[]`. -/
def glueArr (lvl : Nat) (items : List (List Nat)) : List Nat :=
  match items with
  | [] => [91, 93]
  | _ => 91 :: (nlIndent (lvl + 1) ++ sepJoin (44 :: nlIndent (lvl + 1)) items
      ++ nlIndent lvl ++ [93])

/-- Glue rendered object entries with the `': '` key separator; the empty
object is rendered without a newline. -/
def glueObj (lvl : Nat) (entries : List (List Nat × List Nat)) : List Nat :=
  match entries with
  | [] => [123, 125]
  | _ => 123 :: (nlIndent (lvl + 1)
      ++ sepJoin (44 :: nlIndent (lvl + 1))
        (entries.map (fun p => encStr p.1 ++ (58 :: 32 :: p.2)))
      ++ nlIndent lvl ++ [125])

mutual

/-- Canonical JSON serialization at indentation level `lvl`, mirroring
`json.dumps(·, sort_keys=True, indent=4, separators=(',', ': '))`.
CPython sorts the entry list of an object by key and then renders the
values; here the entries are rendered first and the rendered pairs are
sorted by key with a stable sort, which gives the same output because the
comparison looks only at the key. -/
def dumpsV : Nat → JVal → List Nat
  | _, JVal.jstr s => encStr s
  | _, JVal.jint n => intStr n
  | lvl, JVal.jarr xs => glueArr lvl (dumpsList (lvl + 1) xs)
  | lvl, JVal.jobj l => glueObj lvl (sortEntries (dumpsEntries (lvl + 1) l))

/-- Render each array item. -/
def dumpsList : Nat → List JVal → List (List Nat)
  | _, [] => []
  | lvl, v :: vs => dumpsV lvl v :: dumpsList lvl vs

/-- Render the value of each object entry, keeping the keys. -/
def dumpsEntries : Nat → List (List Nat × JVal) → List (List Nat × List Nat)
  | _, [] => []
  | lvl, (k, v) :: rest => (k, dumpsV lvl v) :: dumpsEntries lvl rest

end

/-- `json.dumps(data, sort_keys=True, indent=4, separators=(',', ': '))`
(line 63 of the source). -/
def dumps (v : JVal) : List Nat := dumpsV 0 v

/-- The envelope `signed_data` built by `sign_data` (lines 60-70): the Python
dict holds the raw `data` (when truthy), the `user`, and the hex `signature`. -/
structure Envelope where
  dataField : Option JVal
  user : List Nat
  signature : List Nat

/-- Outcome of the interactive `getpass.getpass()` call (line 55): the operator
either enters a secret or interrupts with Ctrl-C (`KeyboardInterrupt`). -/
inductive PromptResult : Type where
  | entered : List Nat → PromptResult
  | interrupted : PromptResult

/-- Observable events of a run: the interactive prompt, a `sys.exit`,
a line printed to stdout, and the HTTP request `requests.<method>(URL+resource, ...)`. -/
inductive Ev : Type where
  | secretPrompt : Ev
  | exited : Nat → Ev
  | printedLine : List Nat → Ev
  | httpRequest : List Nat → List Nat → Ev
deriving DecidableEq

/-- Result of `sign_data`: the events it performed, and the envelope, or
`none` when `sys.exit(1)` was reached (line 57). -/
structure SignResult where
  events : List Ev
  result : Option Envelope

/-- Envelope construction of lines 59-70, for an already-resolved token:
`hmac.new(bytes(token, 'utf8'), msg=bytes(user, 'utf8'), digestmod=hashlib.sha512)`,
then, when `data` is truthy, `signature.update(bytes(json_data, 'utf8'))` and
`signed_data['data'] = data`. -/
def mkSignedData (user token : List Nat) (data : Option JVal) : Envelope :=
  let sig := hmacNew (utf8Encode token) (utf8Encode user)
  match data with
  | some d =>
    if pyTruthy (some d) then
      { dataField := some d, user := user,
        signature := hmacHexdigest (hmacUpdate sig (utf8Encode (dumps d))) }
    else
      { dataField := none, user := user, signature := hmacHexdigest sig }
  | none => { dataField := none, user := user, signature := hmacHexdigest sig }

/-- The `sign_data` function (lines 49-70). When `token` is `None` the secret
is prompted for once and hashed
(`hashlib.sha512(bytes(getpass.getpass(), 'utf8')).hexdigest()`); a
`KeyboardInterrupt` reaches `sys.exit(1)` before any signature is computed. -/
def sign_data (user : List Nat) (token : Option (List Nat)) (data : Option JVal)
    (prompt : PromptResult) : SignResult :=
  match token with
  | some t => { events := [], result := some (mkSignedData user t data) }
  | none =>
    match prompt with
    | PromptResult.interrupted =>
      { events := [Ev.secretPrompt, Ev.exited 1], result := none }
    | PromptResult.entered s =>
      { events := [Ev.secretPrompt],
        result := some (mkSignedData user (sha512hex (utf8Encode s)) data) }

/-- Event trace of the request half of `blih` (lines 78-90): the arguments of
`requests_method` are evaluated first, so `sign_data` (with its possible
prompt and `sys.exit`) runs to completion before any network I/O. -/
def blihEvents (method resource user : List Nat) (token : Option (List Nat))
    (data : Option JVal) (prompt : PromptResult) : List Ev :=
  let sr := sign_data user token data prompt
  match sr.result with
  | none => sr.events
  | some _ => sr.events ++ [Ev.httpRequest method resource]

/-- Classified outcome of the response half of `blih`:
`success` is the `return data` of line 106, `exitFatal code msg` is
`logger.critical(msg)` followed by `sys.exit(code)`, and
`uncaughtException` is an exception no `except` clause matches (the
interpreter aborts with a traceback and exit status 1, logging nothing). -/
inductive Outcome : Type where
  | success : JVal → Outcome
  | exitFatal : Nat → JVal → Outcome
  | uncaughtException : Outcome

/-- First value bound to `k` in an object entry list; Python dict lookup
(entry lists of parsed JSON have unique keys). -/
def assocFind (k : List Nat) : List (List Nat × JVal) → Option JVal
  | [] => none
  | (k2, v) :: rest => if k2 = k then some v else assocFind k rest

/-- Response classification of `blih` (lines 91-106). `body` is the JSON
parse of the response body, `none` when unparseable. `data = req.json()`
runs before the status check, and its decode error is not among the caught
`requests` exceptions, so an unparseable body is an uncaught exception for
every status. On a non-200 status, `data['error']` is logged when present
(`KeyError` falls back to `'Unknown error'`), then `sys.exit(1)`; indexing a
non-dict body with a string raises an uncaught `TypeError`. -/
def blihResponse (status : Nat) (body : Option JVal) : Outcome :=
  match body with
  | none => Outcome.uncaughtException
  | some data =>
    if status ≠ 200 then
      match data with
      | JVal.jobj entries =>
        match assocFind (strCp "error") entries with
        | some msg => Outcome.exitFatal 1 msg
        | none => Outcome.exitFatal 1 (JVal.jstr (strCp "Unknown error"))
      | _ => Outcome.uncaughtException
    else Outcome.success data

/-- The resolved argument mapping `vars(argument)` handed to
`repository_create` (lines 368-380): identity, optional token, verbosity
and the repository name (`command`/`subcommand` are fixed to
`repository create`, `func` to `repository_create`). -/
structure Args where
  user : List Nat
  token : Option (List Nat)
  verbose : Nat
  name : List Nat

/-- Python `repr` of one character of a single-quoted string literal.
Exact for code points below 128; code points above 127 are rendered as
backslash escapes (CPython keeps printable non-ASCII literal, but the
theorems below only instantiate ASCII arguments). -/
def pyReprChar (c : Nat) : List Nat :=
  if c = 92 then [92, 92]
  else if c = 39 then [92, 39]
  else if c = 9 then [92, 116]
  else if c = 10 then [92, 110]
  else if c = 13 then [92, 114]
  else if 32 ≤ c && c < 127 then [c]
  else if c < 256 then [92, 120, hexDigit (c / 16), hexDigit (c % 16)]
  else 92 :: 117 :: hex4 c

/-- Python `repr` of a string (single-quoted form). -/
def pyReprStr (s : List Nat) : List Nat := 39 :: (s.flatMap pyReprChar ++ [39])

/-- Python `repr` of the optional token: `'...'` or `None`. -/
def pyReprOptStr : Option (List Nat) → List Nat
  | some s => pyReprStr s
  | none => strCp "None"

/-- The line `print(args)` writes (line 112): the `repr` of the resolved
argument dict, tokens included verbatim. `funcAddr` is the memory address
of the bound `repository_create` function appearing in its `repr`. -/
def argsReprLine (funcAddr : List Nat) (a : Args) : List Nat :=
  strCp "\x7b'user': " ++ pyReprStr a.user
    ++ strCp ", 'token': " ++ pyReprOptStr a.token
    ++ strCp ", 'verbose': " ++ natDigits a.verbose
    ++ strCp ", 'command': 'repository', 'subcommand': 'create', 'name': "
    ++ pyReprStr a.name
    ++ strCp ", 'func': <function repository_create at 0x" ++ funcAddr ++ strCp ">\x7d"

/-- Event trace of `repository_create` (lines 108-119) up to the HTTP call:
`print(args)` first, then
`blih('post', '/repositories', user, token, \x7b'name': name, 'type': 'git'\x7d)`. -/
def repository_createEvents (funcAddr : List Nat) (a : Args) (prompt : PromptResult) : List Ev :=
  Ev.printedLine (argsReprLine funcAddr a)
    :: blihEvents (strCp "post") (strCp "/repositories") a.user a.token
      (some (JVal.jobj [(strCp "name", JVal.jstr a.name),
        (strCp "type", JVal.jstr (strCp "git"))]))
      prompt

/-- True exactly on the `logger.critical`-then-`sys.exit` outcomes. -/
def Outcome.reportsFatal : Outcome → Bool
  | Outcome.exitFatal _ _ => true
  | _ => false

/-- Sanity check: the FIPS test vector SHA-512 of the empty message. -/
theorem sha512_empty_vector :
    sha512hex [] = strCp ("cf83e1357eefb8bdf1542850d66d8007d620e4050b5715dc83f4a921d36ce9ce"
      ++ "47d0d13c5d85f2b0ff8318d2877eec2f63b931bd47417a81a538327af927da3e") := by
  decide

/-- Sanity check: the FIPS test vector SHA-512 of `"abc"`. -/
theorem sha512_abc_vector :
    sha512hex (strCp "abc") = strCp
      ("ddaf35a193617abacc417349ae20413112e6fa4e89a97ea20a9eeee64b55d39a"
      ++ "2192992a274fc1a836ba3c23a3feebbd454d4423643ce80e2a9ac94fa54ca49f") := by
  decide

end Blih

namespace Blih

set_option maxRecDepth 100000

/-- Claim C3: with a supplied token and no payload, the signature is the
HMAC-SHA512 of the identity bytes alone, and the envelope holds only the
identity and the signature (no `data` field). -/
theorem sign_data_no_payload_c3 (user token : List Nat) (p : PromptResult) :
    (sign_data user (some token) none p).events = []
    ∧ (sign_data user (some token) none p).result
      = some (Envelope.mk none user
          (bytesToHex (hmacSha512 (utf8Encode token) (utf8Encode user)))) :=
  ⟨rfl, rfl⟩

/-- Claim C4: with a supplied token, `sign_data` is a pure function of its
inputs: the result does not depend on the prompt environment, and no
observable event (prompt, exit, output, network) is performed. -/
theorem sign_data_deterministic_c4 (user token : List Nat) (d : Option JVal)
    (p q : PromptResult) :
    sign_data user (some token) d p = sign_data user (some token) d q
    ∧ (sign_data user (some token) d p).events = [] :=
  ⟨rfl, rfl⟩

/-- Claim C9: an empty payload mapping is falsy in Python, so signing with it
yields exactly the envelope obtained with no payload at all. -/
theorem sign_data_empty_eq_none_c9 (user token : List Nat) (p : PromptResult) :
    sign_data user (some token) (some (JVal.jobj [])) p
      = sign_data user (some token) none p :=
  rfl

/-- Claim C7: a 200 response with a parseable JSON body is returned to the
caller unchanged; in particular `{"message": "ok"}` is returned as a success
whose `message` field is `"ok"`. -/
theorem blihResponse_success_c7 :
    (∀ j : JVal, blihResponse 200 (some j) = Outcome.success j)
    ∧ blihResponse 200 (some (JVal.jobj [(strCp "message", JVal.jstr (strCp "ok"))]))
        = Outcome.success (JVal.jobj [(strCp "message", JVal.jstr (strCp "ok"))])
    ∧ assocFind (strCp "message") [(strCp "message", JVal.jstr (strCp "ok"))]
        = some (JVal.jstr (strCp "ok")) :=
  ⟨fun _ => rfl, rfl, rfl⟩

/-- Claim C5, counterexample: a 500 response with an unparseable body does not
produce the claimed fatal report with a generic fallback message; the decode
exception raised by `req.json()` (line 91) matches no `except` clause, so the
program crashes before the status check is reached and nothing is logged. -/
theorem blihResponse_unparseable_c5_cex :
    blihResponse 500 none = Outcome.uncaughtException
    ∧ Outcome.reportsFatal (blihResponse 500 none) = false :=
  ⟨rfl, rfl⟩

/-- Claim C5 (amended): for every non-200 response whose body is not
parseable JSON, the dispatcher terminates through an uncaught JSON decode
exception (abnormal termination, non-zero interpreter exit status), without
logging any fallback message. -/
theorem blihResponse_unparseable_c5 (status : Nat) (_h : status ≠ 200) :
    blihResponse status none = Outcome.uncaughtException :=
  rfl

/-- Witness for `blihResponse_unparseable_c5` at status 500. -/
theorem blihResponse_unparseable_c5_witness :
    (500 : Nat) ≠ 200 ∧ blihResponse 500 none = Outcome.uncaughtException :=
  ⟨by decide, blihResponse_unparseable_c5 500 (by decide)⟩

/-- Claim C6, counterexample: at status 403 with the parseable body `\x7b\x7d`
(no `error` field), the logged generic message is `'Unknown error'`
(capital `U`, line 103), not the claimed `"unknown error"`. -/
theorem blihResponse_generic_c6_cex :
    blihResponse 403 (some (JVal.jobj []))
      = Outcome.exitFatal 1 (JVal.jstr (strCp "Unknown error"))
    ∧ strCp "Unknown error" ≠ strCp "unknown error" :=
  ⟨rfl, by decide⟩

/-- Claim C6 (amended): for every non-200 response whose body parses to a
JSON object, the dispatcher logs the body's `error` field when present and
the generic message `"Unknown error"` when absent, then exits with status 1;
a 403 with body `\x7b"error": "forbidden"\x7d` yields the message
`"forbidden"`. (A parseable non-object body instead raises an uncaught
`TypeError` at `data['error']`.) -/
theorem blihResponse_error_field_c6 (status : Nat) (entries : List (List Nat × JVal))
    (h : status ≠ 200) :
    (∀ v, assocFind (strCp "error") entries = some v →
      blihResponse status (some (JVal.jobj entries)) = Outcome.exitFatal 1 v)
    ∧ (assocFind (strCp "error") entries = none →
      blihResponse status (some (JVal.jobj entries))
        = Outcome.exitFatal 1 (JVal.jstr (strCp "Unknown error"))) := by
  constructor
  · intro v hv
    simp [blihResponse, h, hv]
  · intro hv
    simp [blihResponse, h, hv]

/-- Witness for `blihResponse_error_field_c6`: the 403 `forbidden` example. -/
theorem blihResponse_error_field_c6_witness :
    (403 : Nat) ≠ 200
    ∧ blihResponse 403 (some (JVal.jobj [(strCp "error", JVal.jstr (strCp "forbidden"))]))
        = Outcome.exitFatal 1 (JVal.jstr (strCp "forbidden")) :=
  ⟨by decide,
    (blihResponse_error_field_c6 403 [(strCp "error", JVal.jstr (strCp "forbidden"))]
      (by decide)).1 (JVal.jstr (strCp "forbidden")) rfl⟩

end Blih

namespace Blih

set_option maxRecDepth 100000

/-- Claim C1, counterexample: for the payload `\x7b\x7d` (a payload mapping,
but falsy in Python), line 62's `if data:` skips the `signature.update`, so
the signature covers the identity bytes alone and differs from the claimed
HMAC over identity bytes followed by the canonical payload bytes `"\x7b\x7d"`. -/
theorem sign_data_signature_c1_cex :
    (sign_data (strCp "alice") (some (strCp "deadbeef")) (some (JVal.jobj []))
        (PromptResult.entered [])).result.map Envelope.signature
      = some (bytesToHex (hmacSha512 (utf8Encode (strCp "deadbeef"))
          (utf8Encode (strCp "alice"))))
    ∧ bytesToHex (hmacSha512 (utf8Encode (strCp "deadbeef")) (utf8Encode (strCp "alice")))
      ≠ bytesToHex (hmacSha512 (utf8Encode (strCp "deadbeef"))
          (utf8Encode (strCp "alice") ++ utf8Encode (dumps (JVal.jobj [])))) :=
  ⟨rfl, by decide⟩

/-- Claim C1 (amended): for every identity, every supplied token and every
non-empty payload mapping, the signature produced by `sign_data` is the
HMAC-SHA512 keyed by the token bytes over the identity bytes followed by the
canonical payload bytes, in lowercase hexadecimal. -/
theorem sign_data_signature_c1 (user token : List Nat) (entries : List (List Nat × JVal))
    (p : PromptResult) (h : entries ≠ []) :
    (sign_data user (some token) (some (JVal.jobj entries)) p).result.map Envelope.signature
      = some (bytesToHex (hmacSha512 (utf8Encode token)
          (utf8Encode user ++ utf8Encode (dumps (JVal.jobj entries))))) := by
  have ht : pyTruthy (some (JVal.jobj entries)) = true := by
    cases entries with
    | nil => exact absurd rfl h
    | cons e rest => rfl
  simp [sign_data, mkSignedData, ht, hmacNew, hmacUpdate, hmacHexdigest]

/-- Witness for `sign_data_signature_c1` at the end-to-end example payload. -/
theorem sign_data_signature_c1_witness :
    [(strCp "name", JVal.jstr (strCp "myrepo")), (strCp "type", JVal.jstr (strCp "git"))] ≠
      ([] : List (List Nat × JVal))
    ∧ (sign_data (strCp "alice") (some (strCp "deadbeef"))
        (some (JVal.jobj [(strCp "name", JVal.jstr (strCp "myrepo")),
          (strCp "type", JVal.jstr (strCp "git"))]))
        PromptResult.interrupted).result.map Envelope.signature
      = some (bytesToHex (hmacSha512 (utf8Encode (strCp "deadbeef"))
          (utf8Encode (strCp "alice")
            ++ utf8Encode (dumps (JVal.jobj [(strCp "name", JVal.jstr (strCp "myrepo")),
              (strCp "type", JVal.jstr (strCp "git"))]))))) :=
  ⟨List.cons_ne_nil _ _,
    sign_data_signature_c1 (strCp "alice") (strCp "deadbeef")
      [(strCp "name", JVal.jstr (strCp "myrepo")), (strCp "type", JVal.jstr (strCp "git"))]
      PromptResult.interrupted (List.cons_ne_nil _ _)⟩

/-- Claim C8: a request issued without a pre-supplied token prompts for the
secret exactly once, before any network call; if the prompt is interrupted
the process exits with status 1 immediately, with no envelope signed and no
network I/O. -/
theorem blih_prompt_c8 (method resource user : List Nat) (d : Option JVal)
    (p : PromptResult) :
    (∃ rest, blihEvents method resource user none d p = Ev.secretPrompt :: rest
      ∧ Ev.secretPrompt ∉ rest)
    ∧ (p = PromptResult.interrupted →
        blihEvents method resource user none d p = [Ev.secretPrompt, Ev.exited 1]
        ∧ (∀ m r, Ev.httpRequest m r ∉ blihEvents method resource user none d p)
        ∧ (sign_data user none d p).result = none) := by
  cases p with
  | entered s =>
    refine ⟨⟨[Ev.httpRequest method resource], rfl, by simp⟩, ?_⟩
    intro hc
    exact absurd hc (by simp)
  | interrupted =>
    refine ⟨⟨[Ev.exited 1], rfl, by simp⟩, ?_⟩
    intro _
    refine ⟨rfl, ?_, rfl⟩
    intro m r
    simp [blihEvents, sign_data]

/-- Witness for `blih_prompt_c8`: an interrupted prompt on the repository
list request. -/
theorem blih_prompt_c8_witness :
    PromptResult.interrupted = PromptResult.interrupted
    ∧ (blihEvents (strCp "get") (strCp "/repositories") (strCp "alice") none none
          PromptResult.interrupted = [Ev.secretPrompt, Ev.exited 1]
        ∧ (∀ m r, Ev.httpRequest m r ∉ blihEvents (strCp "get") (strCp "/repositories")
            (strCp "alice") none none PromptResult.interrupted)
        ∧ (sign_data (strCp "alice") none none PromptResult.interrupted).result = none) :=
  ⟨rfl, (blih_prompt_c8 (strCp "get") (strCp "/repositories") (strCp "alice") none
    PromptResult.interrupted).2 rfl⟩

end Blih

namespace Blih

set_option maxRecDepth 100000

/-- Characters that `repr` leaves literal inside a single-quoted string:
printable ASCII other than the quote and the backslash. -/
theorem pyReprChar_safe (c : Nat) (h : 32 ≤ c ∧ c < 127 ∧ c ≠ 39 ∧ c ≠ 92) :
    pyReprChar c = [c] := by
  obtain ⟨h1, h2, h3, h4⟩ := h
  unfold pyReprChar
  rw [if_neg h4, if_neg h3, if_neg (by omega), if_neg (by omega), if_neg (by omega),
    if_pos (by simp; omega)]

/-- A string of safe characters is its own escaped form. -/
theorem flatMap_pyReprChar (t : List Nat)
    (hsafe : ∀ c ∈ t, 32 ≤ c ∧ c < 127 ∧ c ≠ 39 ∧ c ≠ 92) :
    t.flatMap pyReprChar = t := by
  induction t with
  | nil => rfl
  | cons c rest ih =>
    rw [List.flatMap_cons, pyReprChar_safe c (hsafe c (List.mem_cons_self c rest)),
      ih (fun x hx => hsafe x (List.mem_cons_of_mem c hx))]
    rfl

/-- Claim C10: `repository_create` prints the entire resolved argument
mapping — the supplied signing token included, verbatim — to stdout before
issuing the HTTP request, so the signing key flows to observable program
output. (The safety hypothesis restricts the token to printable ASCII
without quote or backslash, on which `repr` is the identity.) -/
theorem repository_create_prints_token_c10 (funcAddr : List Nat) (a : Args)
    (p : PromptResult) (t : List Nat) (ht : a.token = some t)
    (hsafe : ∀ c ∈ t, 32 ≤ c ∧ c < 127 ∧ c ≠ 39 ∧ c ≠ 92) :
    repository_createEvents funcAddr a p
      = Ev.printedLine (argsReprLine funcAddr a)
        :: [Ev.httpRequest (strCp "post") (strCp "/repositories")]
    ∧ ∃ pre suf, argsReprLine funcAddr a = pre ++ t ++ suf := by
  constructor
  · simp [repository_createEvents, blihEvents, sign_data, ht]
  · refine ⟨strCp "\x7b'user': " ++ pyReprStr a.user ++ strCp ", 'token': " ++ [39],
      [39] ++ strCp ", 'verbose': " ++ natDigits a.verbose
        ++ strCp ", 'command': 'repository', 'subcommand': 'create', 'name': "
        ++ pyReprStr a.name
        ++ strCp ", 'func': <function repository_create at 0x" ++ funcAddr
        ++ strCp ">\x7d", ?_⟩
    rw [argsReprLine, ht]
    show _ ++ _ ++ _ ++ pyReprStr t ++ _ ++ _ ++ _ ++ _ ++ _ ++ _ ++ _ = _
    rw [show pyReprStr t = 39 :: (t ++ [39]) by rw [pyReprStr, flatMap_pyReprChar t hsafe]]
    simp

/-- Witness for `repository_create_prints_token_c10` with the token
`deadbeef` of the end-to-end example. -/
theorem repository_create_prints_token_c10_witness :
    (Args.mk (strCp "alice") (some (strCp "deadbeef")) 0 (strCp "myrepo")).token
        = some (strCp "deadbeef")
    ∧ (∀ c ∈ strCp "deadbeef", 32 ≤ c ∧ c < 127 ∧ c ≠ 39 ∧ c ≠ 92)
    ∧ (repository_createEvents (strCp "7f00deadbeef")
          (Args.mk (strCp "alice") (some (strCp "deadbeef")) 0 (strCp "myrepo"))
          (PromptResult.entered [])
        = Ev.printedLine (argsReprLine (strCp "7f00deadbeef")
            (Args.mk (strCp "alice") (some (strCp "deadbeef")) 0 (strCp "myrepo")))
          :: [Ev.httpRequest (strCp "post") (strCp "/repositories")]
      ∧ ∃ pre suf, argsReprLine (strCp "7f00deadbeef")
          (Args.mk (strCp "alice") (some (strCp "deadbeef")) 0 (strCp "myrepo"))
            = pre ++ strCp "deadbeef" ++ suf) :=
  ⟨rfl, by decide,
    repository_create_prints_token_c10 (strCp "7f00deadbeef")
      (Args.mk (strCp "alice") (some (strCp "deadbeef")) 0 (strCp "myrepo"))
      (PromptResult.entered []) (strCp "deadbeef") rfl (by decide)⟩

end Blih

namespace Blih

set_option maxRecDepth 100000

/-- Lexicographic order is irreflexive. -/
theorem strLtB_irrefl (s : List Nat) : strLtB s s = false := by
  induction s with
  | nil => rfl
  | cons a t ih => simp [strLtB, ih]

/-- Lexicographic order is transitive. -/
theorem strLtB_trans (s t u : List Nat) (h1 : strLtB s t = true)
    (h2 : strLtB t u = true) : strLtB s u = true := by
  induction s generalizing t u with
  | nil =>
    cases u with
    | nil =>
      cases t with
      | nil => simp [strLtB] at h1
      | cons b t' => simp [strLtB] at h2
    | cons c u' => simp [strLtB]
  | cons a s' ih =>
    cases t with
    | nil => simp [strLtB] at h1
    | cons b t' =>
      cases u with
      | nil => simp [strLtB] at h2
      | cons c u' =>
        simp only [strLtB] at h1 h2 ⊢
        split_ifs at h1 with hab hba
        · split_ifs at h2 with hbc hcb
          · rw [if_pos (by omega)]
          · rw [if_pos (by omega)]
        · split_ifs at h2 with hbc hcb
          · rw [if_pos (by omega)]
          · rw [if_neg (by omega), if_neg (by omega)]
            exact ih t' u' h1 h2

/-- Lexicographic order is asymmetric. -/
theorem strLtB_asymm (s t : List Nat) (h : strLtB s t = true) : strLtB t s = false := by
  cases hts : strLtB t s
  · rfl
  · have := strLtB_trans s t s h hts
    rw [strLtB_irrefl] at this
    simp at this

/-- Two strings neither of which is lexicographically below the other are
equal. -/
theorem strLtB_antisymm (s t : List Nat) (h1 : strLtB s t = false)
    (h2 : strLtB t s = false) : s = t := by
  induction s generalizing t with
  | nil =>
    cases t with
    | nil => rfl
    | cons b t' => simp [strLtB] at h1
  | cons a s' ih =>
    cases t with
    | nil => simp [strLtB] at h2
    | cons b t' =>
      simp only [strLtB] at h1 h2
      by_cases hab : a < b
      · rw [if_pos hab] at h1
        simp at h1
      · by_cases hba : b < a
        · rw [if_pos hba] at h2
          simp at h2
        · have hk : a = b := by omega
          subst hk
          rw [if_neg hab, if_neg hba] at h1
          rw [if_neg hba, if_neg hab] at h2
          rw [ih t' h1 h2]

/-- The key order on rendered entries is total. -/
theorem entryLe_total (p q : List Nat × List Nat) : entryLe p q ∨ entryLe q p := by
  unfold entryLe strLeB
  cases h : strLtB q.1 p.1
  · left
    simp
  · right
    rw [strLtB_asymm q.1 p.1 h]
    rfl

/-- The key order on rendered entries is transitive. -/
theorem entryLe_trans (p q r : List Nat × List Nat) (h1 : entryLe p q)
    (h2 : entryLe q r) : entryLe p r := by
  unfold entryLe strLeB at h1 h2 ⊢
  have h1' : strLtB q.1 p.1 = false := by
    revert h1
    cases strLtB q.1 p.1 <;> simp
  have h2' : strLtB r.1 q.1 = false := by
    revert h2
    cases strLtB r.1 q.1 <;> simp
  cases hrp : strLtB r.1 p.1
  · rfl
  · exfalso
    by_cases hpq : strLtB p.1 q.1 = true
    · have := strLtB_trans r.1 p.1 q.1 hrp hpq
      rw [h2'] at this
      simp at this
    · have hk : p.1 = q.1 :=
        strLtB_antisymm p.1 q.1 (by revert hpq; cases strLtB p.1 q.1 <;> simp) h1'
      rw [hk] at hrp
      rw [h2'] at hrp
      simp at hrp

/-- A sorted entry list with distinct keys is determined by its multiset of
entries: two sorted permutations of each other are equal. -/
theorem sortedEntries_eq_of_perm (l₁ l₂ : List (List Nat × List Nat))
    (hp : l₁.Perm l₂) (hs₁ : l₁.Sorted entryLe) (hs₂ : l₂.Sorted entryLe)
    (hn : (l₁.map Prod.fst).Nodup) : l₁ = l₂ := by
  induction l₁ generalizing l₂ with
  | nil =>
    cases l₂ with
    | nil => rfl
    | cons b t₂ =>
      have := hp.length_eq
      simp at this
  | cons a t₁ ih =>
    cases l₂ with
    | nil =>
      have := hp.length_eq
      simp at this
    | cons b t₂ =>
      by_cases hab : a = b
      · subst hab
        have hn' : (t₁.map Prod.fst).Nodup := (List.nodup_cons.mp (by simpa using hn)).2
        rw [ih t₂ hp.cons_inv hs₁.of_cons hs₂.of_cons hn']
      · exfalso
        have hat₂ : a ∈ t₂ := by
          have hm : a ∈ b :: t₂ := hp.subset (List.mem_cons_self a t₁)
          rcases List.mem_cons.mp hm with h | h
          · exact absurd h hab
          · exact h
        have hbt₁ : b ∈ t₁ := by
          have hm : b ∈ a :: t₁ := hp.symm.subset (List.mem_cons_self b t₂)
          rcases List.mem_cons.mp hm with h | h
          · exact absurd h.symm hab
          · exact h
        have h1 : entryLe a b := List.rel_of_sorted_cons hs₁ b hbt₁
        have h2 : entryLe b a := List.rel_of_sorted_cons hs₂ a hat₂
        have hk : a.1 = b.1 := by
          have h1' : strLtB b.1 a.1 = false := by
            revert h1
            unfold entryLe strLeB
            cases strLtB b.1 a.1 <;> simp
          have h2' : strLtB a.1 b.1 = false := by
            revert h2
            unfold entryLe strLeB
            cases strLtB a.1 b.1 <;> simp
          exact strLtB_antisymm a.1 b.1 h2' h1'
        have hmem : a.1 ∈ t₁.map Prod.fst := by
          rw [hk]
          exact List.mem_map_of_mem Prod.fst hbt₁
        exact (List.nodup_cons.mp (by simpa using hn)).1 hmem

/-- `dumpsEntries` renders each value and keeps the keys. -/
theorem dumpsEntries_eq_map (lvl : Nat) (l : List (List Nat × JVal)) :
    dumpsEntries lvl l = l.map (fun p => (p.1, dumpsV lvl p.2)) := by
  induction l with
  | nil => rfl
  | cons a rest ih =>
    cases a with
    | mk k v => simp [dumpsEntries, ih]

/-- Claim C2: the canonical serialization of an object is invariant under the
construction order of its entries (any permutation of an entry list with
distinct keys serializes to the same bytes), and the payload
`\x7b"b": 1, "a": 2\x7d` serializes with key `a` before key `b`. -/
theorem dumps_canonical_c2 :
    (∀ l₁ l₂ : List (List Nat × JVal), l₁.Perm l₂ → (l₁.map Prod.fst).Nodup →
      dumps (JVal.jobj l₁) = dumps (JVal.jobj l₂))
    ∧ dumps (JVal.jobj [(strCp "b", JVal.jint 1), (strCp "a", JVal.jint 2)])
        = strCp "\x7b\n    \"a\": 2,\n    \"b\": 1\n\x7d" := by
  constructor
  · intro l₁ l₂ hp hn
    haveI : IsTotal (List Nat × List Nat) entryLe := ⟨entryLe_total⟩
    haveI : IsTrans (List Nat × List Nat) entryLe := ⟨fun p q r => entryLe_trans p q r⟩
    show glueObj 0 (sortEntries (dumpsEntries 1 l₁))
      = glueObj 0 (sortEntries (dumpsEntries 1 l₂))
    congr 1
    have hpe : (dumpsEntries 1 l₁).Perm (dumpsEntries 1 l₂) := by
      rw [dumpsEntries_eq_map, dumpsEntries_eq_map]
      exact hp.map _
    apply sortedEntries_eq_of_perm
    · exact ((List.perm_insertionSort entryLe _).trans hpe).trans
        (List.perm_insertionSort entryLe _).symm
    · exact List.sorted_insertionSort entryLe _
    · exact List.sorted_insertionSort entryLe _
    · have hkeys : (dumpsEntries 1 l₁).map Prod.fst = l₁.map Prod.fst := by
        rw [dumpsEntries_eq_map, List.map_map]
        rfl
      have h1 : ((dumpsEntries 1 l₁).map Prod.fst).Nodup := by
        rw [hkeys]
        exact hn
      exact (((List.perm_insertionSort entryLe _).map Prod.fst).nodup_iff).mpr h1
  · decide

/-- Witness for `dumps_canonical_c2`: the two construction orders of the
example payload canonicalize identically. -/
theorem dumps_canonical_c2_witness :
    dumps (JVal.jobj [(strCp "b", JVal.jint 1), (strCp "a", JVal.jint 2)])
      = dumps (JVal.jobj [(strCp "a", JVal.jint 2), (strCp "b", JVal.jint 1)]) :=
  dumps_canonical_c2.1 _ _
    (List.Perm.swap (strCp "a", JVal.jint 2) (strCp "b", JVal.jint 1) [])
    (by decide)

end Blih
